import Mathlib

/-!
# Verification of the oorbiit per-conversation session / generation engine

A shallow embedding, in Lean 4, of the session store, album aggregation,
Remix status management, cooldown gate, generation orchestration, credit
ledger debit and the HTTP retry loop of the oorbiit bot, together with
proofs of the behavioural properties stated in its specification.

Conventions of the embedding:
* photo payloads (Python `bytes`) are opaque values `Blob := Nat`;
  the value `0` stands for the empty (falsy) byte string;
* Telegram message ids are `Nat`, allocated by a per-chat counter;
* captions and prompts are `String`s that are already whitespace-stripped
  (Python `.strip()` is applied at every entry point of the source, so the
  model works with the stripped value; the empty string is the falsy
  "no caption / no prompt" case, matching Python truthiness);
* wall-clock instants are rationals (`time.time()` values);
* Python `dict`s are association lists looked up by first match;
* Python `int` values that may leave `Nat` range (balances, remaining
  capacity) are `Int` with the same arithmetic as the source.
-/

namespace Oorbiit

/-- Opaque photo payload (Python `bytes`); `0` models the empty byte string,
which is falsy in Python. -/
abbrev Blob := Nat

/-- A pending album buffer; embeds the dict
`{"photos": [...], "prompt": None, "scheduled": False}` created in
`handlers/media.py` (`handle_photo`, album branch).  `prompt = ""` models the
Python `None`/empty cases (both falsy). -/
structure AlbumGroup where
  photos : List Blob
  prompt : String
  scheduled : Bool
deriving DecidableEq, Repr

/-- Per-conversation in-memory session; embeds the session dict of
`session_store/settings.py` (`_default_session` / `get_session`). -/
structure Session where
  photos : List Blob
  model : String
  aspect_ratio : String
  resolution : String
  images_per_prompt : Int
  photo_status_message_ids : List Nat
  photo_message_ids : List Nat
  media_groups : List (String × AlbumGroup)
  last_generate_ts : Option ℚ
deriving DecidableEq, Repr

/-- Durable per-user settings as returned by `database.get_user_settings`
(the function always returns all four keys, defaulting missing rows). -/
structure DbSettings where
  model : String
  aspect_ratio : String
  resolution : String
  images_per_prompt : Int
deriving DecidableEq, Repr

/-- The in-memory `SESSIONS` map of `session_store/settings.py` together
with the durable settings store it is seeded from. -/
structure Store where
  sessions : List (Nat × Session)
  db : Nat → DbSettings

/-- Fresh session seeded from durable settings; embeds the `not sess` branch
of `session_store.settings.get_session`. -/
def session_from_db (d : DbSettings) : Session :=
  ⟨[], d.model, d.aspect_ratio, d.resolution, d.images_per_prompt, [], [], [], none⟩

/-- Embeds `session_store.settings.get_session`: return the existing session
or create one seeded from the DB settings.  (The `setdefault` loop of the
`else` branch is the identity here because the Lean session type is total.) -/
def get_session (store : Store) (chat_id : Nat) : Session × Store :=
  match store.sessions.lookup chat_id with
  | some s => (s, store)
  | none =>
      let s := session_from_db (store.db chat_id)
      (s, ⟨(chat_id, s) :: store.sessions, store.db⟩)

/-- Embeds `session_store.settings.reset_session`:
`SESSIONS.pop(chat_id, None)` — drop the volatile session, touch nothing
else.  Total: a missing session is simply absent from the filter. -/
def reset_session (store : Store) (chat_id : Nat) : Store :=
  ⟨store.sessions.filter (fun p => p.1 != chat_id), store.db⟩

/-- Embeds `session_store.settings.set_model`: write the model into the
session and into the durable settings. -/
def set_model (store : Store) (chat_id : Nat) (model : String) : Store :=
  let s := (get_session store chat_id).1
  let store1 := (get_session store chat_id).2
  let s1 := { s with model := model }
  ⟨(chat_id, s1) :: store1.sessions.filter (fun p => p.1 != chat_id),
   fun u => if u = chat_id then { store1.db u with model := model } else store1.db u⟩

/-- Embeds `session_store.settings.set_images_per_prompt`: clamp the value
into `[1, 4]` and store it in the session and the durable settings; no value
is ever rejected. -/
def set_images_per_prompt (store : Store) (chat_id : Nat) (value : Int) : Store :=
  let value := if value < 1 then 1 else value
  let value := if value > 4 then 4 else value
  let s := (get_session store chat_id).1
  let store1 := (get_session store chat_id).2
  let s1 := { s with images_per_prompt := value }
  ⟨(chat_id, s1) :: store1.sessions.filter (fun p => p.1 != chat_id),
   fun u => if u = chat_id then { store1.db u with images_per_prompt := value } else store1.db u⟩

/-- Python `int()` applied to a float/rational: truncation toward zero. -/
def pyInt (q : ℚ) : Int :=
  if 0 ≤ q then ⌊q⌋ else -⌊-q⌋

/-- Result of the cooldown gate: whether the attempt is admitted, the
whole-second wait reported on rejection, and the session timestamp after
the call. -/
structure CooldownResult where
  allowed : Bool
  remain : Option Int
  new_ts : Option ℚ
deriving DecidableEq, Repr

/-- Embeds `services.cooldown.ensure_cooldown_and_mark` (the local copy
`_ensure_cooldown_and_mark` in `handlers/media.py` has the same body): if
the elapsed time since the recorded timestamp is below the cooldown, reject
with `remain = max(int(cooldown - elapsed), 1)` seconds and leave the
timestamp unchanged; otherwise record `now` and admit. -/
def ensure_cooldown_and_mark (now : ℚ) (last_ts : Option ℚ) (cooldown : ℚ) :
    CooldownResult :=
  match last_ts with
  | some last =>
      if now - last < cooldown then
        let remain0 := pyInt (cooldown - (now - last))
        let remain := if remain0 < 1 then 1 else remain0
        ⟨false, some remain, some last⟩
      else
        ⟨true, none, some now⟩
  | none => ⟨true, none, some now⟩

/-- Embeds `database.register_generation` restricted to the fields it
touches: the stored `extra_balance` (`none` models SQL NULL, read as 0 via
`extra_balance or 0`).  Returns the stored balance after the call; only
`source = "extra"` performs an update. -/
def register_generation (extra_balance : Option Int) (source : String)
    (amount : Int) : Option Int :=
  let amount := if amount ≤ 0 then 1 else amount
  if source = "extra" then
    some (max 0 (extra_balance.getD 0 - amount))
  else
    extra_balance

/-- Embeds lines 209–213 of `services/generation.py`: the generation-time
read `int(sess.get("images_per_prompt", 1) or 1)` (the `or 1` turns a falsy
stored 0 into 1) followed by clamping into `[1, 4]`. -/
def images_per_prompt_effective (stored : Int) : Int :=
  let n := if stored = 0 then 1 else stored
  let n := if n < 1 then 1 else n
  if n > 4 then 4 else n

/-! ## Generation orchestrator (`services/generation.py`) -/

/-- The privileged allow-list `ADMIN_IDS` of `services/generation.py`. -/
def ADMIN_IDS : List Nat :=
  [420273925, 801938649, 1429506195, 639960483, 1169321143, 744363768]

/-- `ADMIN_PERIOD_LIMITS` of `services/generation.py`: rolling-window caps
per model tier for the privileged accounts. -/
def ADMIN_PERIOD_LIMITS : List (String × Nat) :=
  [("flash", 330), ("pro", 41)]

/-- Result dict of `_check_admin_limit_db`. -/
structure AdminLimitInfo where
  can : Bool
  used : Nat
  limit : Int
  remaining : Int
  period_label : String
deriving DecidableEq, Repr

/-- Embeds `services.generation._check_admin_limit_db`.  The DB count
`get_model_usage_for_period(user_id, model, ...)` is passed in as `used`,
and the computed period label as `label` (both come from collaborators
outside the core). -/
def check_admin_limit_db (used : Nat) (model : String) (label : String) :
    AdminLimitInfo :=
  match ADMIN_PERIOD_LIMITS.lookup model with
  | none => ⟨true, 0, 10 ^ 9, 10 ^ 9, label⟩
  | some limit =>
      ⟨decide (used < limit), used, (limit : Int), max ((limit : Int) - used) 0, label⟩

/-- The user-facing rejection cases of `generate_and_send` before any
gateway call. -/
inductive GenReject where
  | emptyInput
  | adminLimit (period_label : String) (limit remaining : Int)
  | noBalance
deriving DecidableEq, Repr

/-- Observable outcome of one `generate_and_send` call:
whether the credit ledger was consulted (`can_generate`), the rejection (if
any), how many gateway calls were actually made, how many images were
delivered (`success_count`), the amount passed to `register_generation` (if
it was called at all), whether the "no images produced" notice was sent,
and the message of a caught exception when the `except` block ran. -/
structure GenOutcome where
  ledger_consulted : Bool
  rejection : Option GenReject
  gateway_calls : Nat
  delivered : Nat
  debit : Option Int
  no_images_notice : Bool
  error_caught : Option String
deriving DecidableEq, Repr

/-- Model normalization of `generate_and_send`: anything outside
`{"flash", "pro"}` falls back to `"flash"`. -/
def normalize_model (model : String) : String :=
  if model = "flash" ∨ model = "pro" then model else "flash"

/-- Per-image ORB cost (`cost_units`): 1 for the flash tier, 3 for pro. -/
def cost_units (model : String) : Int :=
  if normalize_model model = "flash" then 1 else 3

/-- Result of one `call_gemini_flash` / `call_gemini_pro` invocation as seen
by the loop in `generate_and_send`: either the call returns bytes (`0`
models the empty/falsy byte string, the only case the in-loop
`if not result_bytes: continue` skip can fire on), or it raises a
`GeminiNoImageError` / `GeminiAPIError` with message `msg`, which
propagates out of the loop into the `except` block. -/
inductive GatewayResult where
  | ok (bytes : Blob)
  | raise (msg : String)
deriving DecidableEq, Repr

/-- Observable behaviour of the `for idx in range(images_per_prompt)` loop
of `generate_and_send`: images delivered (`success_count`), gateway calls
actually made, and the message of the exception that aborted the loop, if
one was raised. -/
structure LoopResult where
  delivered : Nat
  calls : Nat
  error : Option String
deriving DecidableEq, Repr

/-- The generation loop, iteration by iteration: a raised exception aborts
the remaining iterations immediately; falsy bytes are skipped and the loop
continues; truthy bytes are delivered (usage logged, preview and document
sent). -/
def gen_loop (gw : Nat → GatewayResult) (i : Nat) : Nat → LoopResult
  | 0 => ⟨0, 0, none⟩
  | r + 1 =>
      match gw i with
      | .raise msg => ⟨0, 1, some msg⟩
      | .ok b =>
          let rest := gen_loop gw (i + 1) r
          if b = 0 then ⟨rest.delivered, rest.calls + 1, rest.error⟩
          else ⟨rest.delivered + 1, rest.calls + 1, rest.error⟩

/-- Embeds `services.generation.generate_and_send` as a function from the
session settings, the account state and the gateway behaviour to its
observable outcome.  `admin_used`/`admin_label` stand for the DB-derived
inputs of `_check_admin_limit_db`; `extra_balance` is the ledger balance
read by `can_generate` (consulted only on the non-privileged path);
`gateway i` is the behaviour of the `i`-th gateway call.  An exception
raised by any iteration jumps to the `except` block: the classified error
notice is sent and `register_generation` is never reached, so nothing is
debited in that case. -/
def generate_and_send (chat_id : Nat) (prompt : String) (photos : List Blob)
    (model0 : String) (ipp0 : Int) (admin_used : Nat) (admin_label : String)
    (extra_balance : Int) (gateway : Nat → GatewayResult) : GenOutcome :=
  let photos := photos.filter (fun p => p ≠ 0)
  if prompt = "" ∧ photos = [] then
    ⟨false, some .emptyInput, 0, 0, none, false, none⟩
  else
    let model := normalize_model model0
    let n := (images_per_prompt_effective ipp0).toNat
    let cost := cost_units model0
    let total_cost := cost * n
    if chat_id ∈ ADMIN_IDS then
      let info := check_admin_limit_db admin_used model admin_label
      if info.remaining < n then
        ⟨false, some (.adminLimit info.period_label info.limit info.remaining), 0, 0, none,
         false, none⟩
      else
        let res := gen_loop gateway 0 n
        match res.error with
        | some msg => ⟨false, none, res.calls, res.delivered, none, false, some msg⟩
        | none =>
            if res.delivered = 0 then ⟨false, none, res.calls, 0, none, true, none⟩
            else ⟨false, none, res.calls, res.delivered, none, false, none⟩
    else
      -- `can_generate(chat_id, cost=total_cost_units)`: allowed iff the
      -- extra balance covers the total cost, with source "extra".
      if extra_balance < total_cost then
        ⟨true, some .noBalance, 0, 0, none, false, none⟩
      else
        let res := gen_loop gateway 0 n
        match res.error with
        | some msg => ⟨true, none, res.calls, res.delivered, none, false, some msg⟩
        | none =>
            if res.delivered = 0 then ⟨true, none, res.calls, 0, none, true, none⟩
            else ⟨true, none, res.calls, res.delivered, some (res.delivered * cost), false, none⟩

/-! ## Gateway retry loop (`gemini_client._post_with_retry`) -/

/-- Outcome of one HTTP POST attempt: a raised timeout, a raised connection
error, or a response with an HTTP status code. -/
inductive HttpOutcome where
  | timeout
  | connError
  | resp (status : Nat)
deriving DecidableEq, Repr

/-- Transient failures retried by `_post_with_retry`: timeouts, connection
errors and 5xx statuses.  4xx and success statuses are not transient. -/
def isTransient : HttpOutcome → Bool
  | .timeout => true
  | .connError => true
  | .resp s => decide (500 ≤ s) && decide (s < 600)

/-- The status code carried by a response outcome. -/
def HttpOutcome.statusOf : HttpOutcome → Option Nat
  | .resp s => some s
  | _ => none

/-- Observable behaviour of `_post_with_retry`: the returned status
(`none` when `GeminiAPIError` is raised), the number of HTTP attempts
performed, and the backoff sleeps in order. -/
structure RetryResult where
  response : Option Nat
  attempts : Nat
  sleeps : List ℚ
deriving DecidableEq, Repr

/-- The loop body of `_post_with_retry`, recursing over the remaining
attempts; `attempt` is the 1-based attempt counter of the Python
`for attempt in range(1, max_retries + 1)` loop and `backoff` the current
sleep, doubled after every transient failure.  When the cap is reached
(`remaining = 1`) a transient failure raises instead of sleeping. -/
def post_with_retry_go (f : Nat → HttpOutcome) (backoff : ℚ) (attempt : Nat) :
    Nat → RetryResult
  | 0 => ⟨none, 0, []⟩
  | remaining + 1 =>
      if isTransient (f attempt) then
        if remaining = 0 then
          ⟨none, 1, []⟩
        else
          let rest := post_with_retry_go f (backoff * 2) (attempt + 1) remaining
          ⟨rest.response, rest.attempts + 1, backoff :: rest.sleeps⟩
      else
        ⟨(f attempt).statusOf, 1, []⟩

/-- Embeds `gemini_client._post_with_retry` with `max_retries` attempts and
initial backoff `base` (`GEMINI_HTTP_BACKOFF_BASE`). -/
def post_with_retry (f : Nat → HttpOutcome) (max_retries : Nat) (base : ℚ) :
    RetryResult :=
  post_with_retry_go f base 1 max_retries

/-- The sequence of exponentially doubling backoff sleeps starting at `b`:
`[b, 2b, 4b, ...]` of length `n`. -/
def backoffs (b : ℚ) : Nat → List ℚ
  | 0 => []
  | n + 1 => b :: backoffs (b * 2) n

/-! ## Chat transport and Remix status management (`handlers/media.py`) -/

/-- Displayed content of a Remix status indicator:
`short i` is `_short_status_text(i)` (1-based "photo i added") and
`full count remaining` is `_full_status_text(count, remaining)` (count of
staged photos, remaining capacity, prompt hint). -/
inductive StatusText where
  | short (index : Nat)
  | full (count : Nat) (remaining : Int)
deriving DecidableEq, Repr

/-- The chat as seen through the transport: a fresh-message-id counter and
the text currently displayed by each live status message (`none` = no such
message / deleted).  Outbound sends, edits and deletes are the operations
below; per the source, a failing edit or delete is swallowed. -/
structure Chat where
  nextId : Nat
  msg : Nat → Option StatusText

/-- `bot.send_message` of a status indicator: allocates a fresh id. -/
def send_status (c : Chat) (t : StatusText) : Nat × Chat :=
  (c.nextId, ⟨c.nextId + 1, fun m => if m = c.nextId then some t else c.msg m⟩)

/-- `bot.delete_message`, with failures (missing message) swallowed. -/
def delete_message (c : Chat) (mid : Nat) : Chat :=
  ⟨c.nextId, fun m => if m = mid then none else c.msg m⟩

/-- `bot.edit_message_text`, with failures on a deleted/unknown message
swallowed (the `except: continue` of the source). -/
def edit_message (c : Chat) (mid : Nat) (t : StatusText) : Chat :=
  match c.msg mid with
  | none => c
  | some _ => ⟨c.nextId, fun m => if m = mid then some t else c.msg m⟩

/-- An inbound (user) message consumes a fresh message id without adding a
status text; models the id of the photo upload message. -/
def alloc_user_msg (c : Chat) : Nat × Chat :=
  (c.nextId, ⟨c.nextId + 1, c.msg⟩)

/-- Delete a list of status messages in order. -/
def delete_many (c : Chat) : List Nat → Chat
  | [] => c
  | mid :: rest => delete_many (delete_message c mid) rest

/-- The `while len(status_ids) < count` creation loop: send `k` fresh status
messages all showing text `t`, returning their ids in order. -/
def send_many (c : Chat) (t : StatusText) : Nat → List Nat × Chat
  | 0 => ([], c)
  | k + 1 =>
      let (mid, c1) := send_status c t
      let (rest, c2) := send_many c1 t k
      (mid :: rest, c2)

/-- The re-labelling loop of `_update_remix_statuses` step 3: indicator at
0-based position `i` shows the short text `short (i+1)` when `i < count - 1`
and the full text otherwise. -/
def edit_all (c : Chat) (mids : List Nat) (i0 count : Nat) (remaining : Int) : Chat :=
  match mids with
  | [] => c
  | mid :: rest =>
      let t := if i0 + 1 < count then StatusText.short (i0 + 1)
               else StatusText.full count remaining
      edit_all (edit_message c mid t) rest (i0 + 1) count remaining

/-- `_max_photos_for_session` of `handlers/media.py`: 14 for the pro tier,
4 otherwise (`MAX_IMAGES_PRO` / `MAX_IMAGES_FLASH`). -/
def max_photos_for_session (sess : Session) : Nat :=
  if sess.model = "pro" then 14 else 4

/-- Embeds `handlers.media._update_remix_statuses` (the body under the
per-session lock, with the transport operations all succeeding — the
settled recompute): delete every indicator when no photo is staged;
otherwise drop excess trailing indicators, create the missing ones (with
the full text), and re-label every indicator in place. -/
def update_remix_statuses (sess : Session) (chat : Chat) : Session × Chat :=
  let photos := sess.photos
  let ids := sess.photo_status_message_ids
  let maxPhotos := max_photos_for_session sess
  let count := photos.length
  if count = 0 then
    ({ sess with photo_status_message_ids := [] }, delete_many chat ids)
  else
    let chat1 := delete_many chat (ids.drop count)
    let ids1 := ids.take count
    let remaining : Int := (maxPhotos : Int) - (count : Int)
    let send_res := send_many chat1 (StatusText.full count remaining) (count - ids1.length)
    let newIds := send_res.1
    let chat2 := send_res.2
    let ids2 := ids1 ++ newIds
    let chat3 := edit_all chat2 ids2 0 count remaining
    ({ sess with photo_status_message_ids := ids2 }, chat3)

/-- Embeds `session_store.photo_session.clear_photos`: erase the staged
photos, their status ids, the upload message ids and the pending album
buffers. -/
def clear_photos (sess : Session) : Session :=
  { sess with photos := [], photo_status_message_ids := [],
              photo_message_ids := [], media_groups := [] }

/-- Embeds `handlers.media._clear_remix_completely`: delete every status
message, then `clear_photos` (the re-`get_session` of the source returns
the same, already cleared, session). -/
def clear_remix_completely (sess : Session) (chat : Chat) : Session × Chat :=
  (clear_photos sess, delete_many chat sess.photo_status_message_ids)

/-- An inbound photo event: payload bytes, stripped caption (`""` = none)
and optional album group id. -/
structure PhotoEvent where
  bytes : Blob
  caption : String
  media_group_id : Option String
deriving DecidableEq, Repr

/-- A dispatched `generate_and_send` task: the prompt and the photo set it
was given (in order). -/
structure GenCall where
  prompt : String
  photos : List Blob
deriving DecidableEq, Repr

/-- Observable result of one `handle_photo` event: the new session and chat,
the album group ids for which a `_process_media_group` task was scheduled,
the generation tasks dispatched immediately (single photo + caption case),
whether the max-photos rejection notice was sent, and whether the cooldown
rejection message was sent. -/
structure HandleResult where
  sess : Session
  chat : Chat
  scheduled : List String
  gen : List GenCall
  rejected : Bool
  cooldownMsg : Bool

/-- Python dict assignment `media_groups[gid] = group` on the association
list: replace the entry when present, append otherwise. -/
def dict_insert (l : List (String × AlbumGroup)) (k : String) (v : AlbumGroup) :
    List (String × AlbumGroup) :=
  if l.any (fun p => p.1 == k) then
    l.map (fun p => if p.1 == k then (k, v) else p)
  else
    l ++ [(k, v)]

/-- Python `media_groups.pop(gid, None)`. -/
def dict_pop (l : List (String × AlbumGroup)) (k : String) :
    Option AlbumGroup × List (String × AlbumGroup) :=
  (l.lookup k, l.filter (fun p => p.1 != k))

/-- Case 3 of `handle_photo` (photo without prompt → Remix staging):
reject with a notice when the staged count is already at the model maximum
(nothing appended, nothing truncated, nothing queued); otherwise append the
photo and its upload-message id and recompute the statuses. -/
def handle_photo_remix (sess : Session) (chat : Chat) (b : Blob)
    (photoMsgId : Nat) : HandleResult :=
  let maxPhotos := max_photos_for_session sess
  if sess.photos.length ≥ maxPhotos then
    ⟨sess, chat, [], [], true, false⟩
  else
    let sess1 := { sess with photos := sess.photos ++ [b],
                             photo_message_ids := sess.photo_message_ids ++ [photoMsgId] }
    let (sess2, chat2) := update_remix_statuses sess1 chat
    ⟨sess2, chat2, [], [], false, false⟩

/-- Embeds `handlers.media.handle_photo` (after a successful download of
the photo bytes).  The three cases of the source: album part with a known
or carried prompt, single photo with caption, and Remix staging.  `now` is
the wall-clock instant of the event (for the cooldown gate). -/
def handle_photo (sess : Session) (chat : Chat) (ev : PhotoEvent) (now : ℚ) :
    HandleResult :=
  let (photoMsgId, chat0) := alloc_user_msg chat
  let b := ev.bytes
  let caption_prompt := ev.caption
  match ev.media_group_id with
  | some gid =>
      let group0 := sess.media_groups.lookup gid
      let album_has_prompt :=
        (group0.elim false (fun g => g.prompt != "")) || (caption_prompt != "")
      if album_has_prompt then
        let g1 := group0.getD ⟨[], "", false⟩
        let g2 := { g1 with photos := g1.photos ++ [b] }
        let g3 := if caption_prompt ≠ "" ∧ g2.prompt = ""
                  then { g2 with prompt := caption_prompt } else g2
        if g3.prompt ≠ "" ∧ g3.scheduled = false then
          let g4 := { g3 with scheduled := true }
          ⟨{ sess with media_groups := dict_insert sess.media_groups gid g4 },
           chat0, [gid], [], false, false⟩
        else
          ⟨{ sess with media_groups := dict_insert sess.media_groups gid g3 },
           chat0, [], [], false, false⟩
      else
        handle_photo_remix sess chat0 b photoMsgId
  | none =>
      if caption_prompt ≠ "" then
        let cd := ensure_cooldown_and_mark now sess.last_generate_ts 1
        if cd.allowed then
          let sess1 := { sess with last_generate_ts := cd.new_ts }
          let (sess2, chat2) := clear_remix_completely sess1 chat0
          ⟨sess2, chat2, [], [⟨caption_prompt, [b]⟩], false, false⟩
        else
          ⟨sess, chat0, [], [], false, true⟩
      else
        handle_photo_remix sess chat0 b photoMsgId

/-- Observable result of one `_process_media_group` resolution. -/
structure ResolveResult where
  sess : Session
  chat : Chat
  gen : Option GenCall
  cooldownMsg : Bool

/-- Embeds `handlers.media._process_media_group` (the part after the settle
delay): pop the buffer, discard it when it has no photos or no prompt,
clamp the photo list to the model maximum, pass the cooldown gate, clear
any Remix staging, and dispatch one generation task for the whole group. -/
def process_media_group (sess : Session) (chat : Chat) (gid : String) (now : ℚ) :
    ResolveResult :=
  let popped := dict_pop sess.media_groups gid
  let sess := { sess with media_groups := popped.2 }
  match popped.1 with
  | none => ⟨sess, chat, none, false⟩
  | some g =>
      if g.photos = [] ∨ g.prompt = "" then
        ⟨sess, chat, none, false⟩
      else
        let maxPhotos := max_photos_for_session sess
        let photos := if g.photos.length > maxPhotos then g.photos.take maxPhotos else g.photos
        let cd := ensure_cooldown_and_mark now sess.last_generate_ts 1
        if cd.allowed then
          let sess1 := { sess with last_generate_ts := cd.new_ts }
          let (sess2, chat2) := clear_remix_completely sess1 chat
          ⟨sess2, chat2, some ⟨g.prompt, photos⟩, false⟩
        else
          ⟨sess, chat, none, true⟩

/-- Embeds `handlers.media.handle_delete_photo` (the delete-button
callback): locate the indicator, on desynchronization clear the whole Remix
state; otherwise remove the photo, its upload message and its indicator at
that index, then fully clear (no photo left) or recompute. -/
def handle_delete_photo (sess : Session) (chat : Chat) (statusMsgId : Nat) :
    Session × Chat :=
  let photos := sess.photos
  let status_ids := sess.photo_status_message_ids
  let pmids := sess.photo_message_ids
  match status_ids.findIdx? (fun m => m == statusMsgId) with
  | none => clear_remix_completely sess chat
  | some idx =>
      let photos1 := if idx < photos.length then photos.eraseIdx idx else photos
      let userMsg := if idx < pmids.length then pmids.get? idx else none
      let pmids1 := if idx < pmids.length then pmids.eraseIdx idx else pmids
      let mid := (status_ids.get? idx).getD 0
      let sids1 := status_ids.eraseIdx idx
      let chat1 := delete_message chat mid
      let chat2 := match userMsg with
                   | some um => delete_message chat1 um
                   | none => chat1
      let sess1 := { sess with photos := photos1, photo_message_ids := pmids1,
                               photo_status_message_ids := sids1 }
      if photos1 = [] then clear_remix_completely sess1 chat2
      else update_remix_statuses sess1 chat2

/-- An operation of the Remix manager: a caption-less single-photo upload
(`handle_photo`, case 3) or a press of the delete button on a status
message (`handle_delete_photo`). -/
inductive RemixOp where
  | add (b : Blob)
  | remove (statusMsgId : Nat)
deriving DecidableEq, Repr

/-- One Remix operation applied to the session and the chat. -/
def remix_step (st : Session × Chat) : RemixOp → Session × Chat
  | .add b =>
      let r := handle_photo st.1 st.2 ⟨b, "", none⟩ 0
      (r.sess, r.chat)
  | .remove mid => handle_delete_photo st.1 st.2 mid

/-- A sequence of Remix operations applied in order. -/
def remix_run (st : Session × Chat) : List RemixOp → Session × Chat
  | [] => st
  | op :: ops => remix_run (remix_step st op) ops

/-- The empty chat: no messages yet, ids allocated from 0. -/
def initChat : Chat := ⟨0, fun _ => none⟩

/-- Processing a burst of photo events in delivery order, accumulating the
scheduled album resolutions and the immediately dispatched generations. -/
def run_photo_events (sess : Session) (chat : Chat) (now : ℚ) :
    List PhotoEvent → Session × Chat × List String × List GenCall
  | [] => (sess, chat, [], [])
  | ev :: evs =>
      let r := handle_photo sess chat ev now
      let rest := run_photo_events r.sess r.chat now evs
      (rest.1, rest.2.1, r.scheduled ++ rest.2.2.1, r.gen ++ rest.2.2.2)

/-- Running the scheduled `_process_media_group` resolutions in order
(after the settle window), accumulating the dispatched generations. -/
def resolve_groups (sess : Session) (chat : Chat) (now : ℚ) :
    List String → Session × Chat × List GenCall
  | [] => (sess, chat, [])
  | gid :: gids =>
      let r := process_media_group sess chat gid now
      let rest := resolve_groups r.sess r.chat now gids
      (rest.1, rest.2.1, (r.gen.elim [] (fun c => [c])) ++ rest.2.2)

/-- End-to-end album scenario: all parts delivered within the settle
window (processed back-to-back), then the scheduled resolutions run.
Returns every generation task dispatched, in dispatch order. -/
def album_scenario_calls (evs : List PhotoEvent) (now : ℚ) : List GenCall :=
  let d : DbSettings := ⟨"flash", "1:1", "1K", 1⟩
  let start := run_photo_events (session_from_db d) initChat now evs
  let res := resolve_groups start.1 start.2.1 now start.2.2.1
  start.2.2.2 ++ res.2.2

/-- The text that indicator `i` (0-based) must display once the Remix
recompute has settled: short for every index before the last, full (count
and remaining capacity) for the last. -/
def expected_status (count : Nat) (maxPhotos : Nat) (i : Nat) : StatusText :=
  if i + 1 < count then StatusText.short (i + 1)
  else StatusText.full count ((maxPhotos : Int) - (count : Int))

/-- The settled Remix invariant of the claim: as many status indicator ids
as staged photos, and each indicator displays its expected text. -/
def remix_settled (sess : Session) (chat : Chat) : Prop :=
  sess.photo_status_message_ids.length = sess.photos.length ∧
  ∀ i, (hi : i < sess.photo_status_message_ids.length) →
    chat.msg (sess.photo_status_message_ids.get ⟨i, hi⟩) =
      some (expected_status sess.photos.length (max_photos_for_session sess) i)

/-- Bookkeeping invariant of the session against the chat: the status and
upload message ids are pairwise distinct and already allocated, every
status id refers to a live message, and there is one upload message id per
staged photo. -/
def remix_wf (sess : Session) (chat : Chat) : Prop :=
  (sess.photo_status_message_ids ++ sess.photo_message_ids).Nodup ∧
  (∀ m ∈ sess.photo_status_message_ids ++ sess.photo_message_ids, m < chat.nextId) ∧
  (∀ m ∈ sess.photo_status_message_ids, (chat.msg m).isSome = true) ∧
  sess.photo_message_ids.length = sess.photos.length

/-! ## Helper lemmas about the session store -/

/-- Looking up a key in an association list from which every entry with that
key has been filtered out yields nothing. -/
theorem lookup_filter_self (l : List (Nat × Session)) (c : Nat) :
    (l.filter (fun p => p.1 != c)).lookup c = none := by
  induction l with
  | nil => rfl
  | cons p l ih =>
      by_cases h : p.1 = c
      · simpa [List.filter, h] using ih
      · simp only [List.filter]
        have hb : (p.1 != c) = true := by simpa [bne_iff_ne] using h
        rw [hb]
        have hc : (c == p.1) = false := by simpa [beq_iff_eq] using (Ne.symm h)
        simpa [List.lookup, hc] using ih

/-- Filtering out a key that is not present leaves the list unchanged. -/
theorem filter_of_lookup_none (l : List (Nat × Session)) (c : Nat)
    (h : l.lookup c = none) : l.filter (fun p => p.1 != c) = l := by
  induction l with
  | nil => rfl
  | cons p l ih =>
      by_cases hp : p.1 = c
      · exfalso
        have : (c == p.1) = true := by simpa [beq_iff_eq] using hp.symm
        simp [List.lookup, this] at h
      · have hc : (c == p.1) = false := by simpa [beq_iff_eq] using (Ne.symm hp)
        have h' : l.lookup c = none := by simpa [List.lookup, hc] using h
        have hb : (p.1 != c) = true := by simpa [bne_iff_ne] using hp
        simp [List.filter, hb, ih h']

/-! ## Claim theorems: session reset, clamping, cooldown, ledger floor -/

/-- C9: resetting a session is total and frame-preserving: the durable
per-user settings are untouched, the conversation has no in-memory session
afterwards (so no staged photos, no status indicator ids and no pending
album buffers — the freshly re-created session is exactly the one seeded
from the durable settings), reset is idempotent, and resetting a
conversation with no session leaves the store unchanged (no error). -/
theorem reset_session_total_and_frame_preserving (store : Store) (chat : Nat) :
    (reset_session store chat).db = store.db ∧
    (reset_session store chat).sessions.lookup chat = none ∧
    (get_session (reset_session store chat) chat).1 = session_from_db (store.db chat) ∧
    (get_session (reset_session store chat) chat).1.photos = [] ∧
    (get_session (reset_session store chat) chat).1.photo_status_message_ids = [] ∧
    (get_session (reset_session store chat) chat).1.media_groups = [] ∧
    reset_session (reset_session store chat) chat = reset_session store chat ∧
    (store.sessions.lookup chat = none →
      (reset_session store chat).sessions = store.sessions) := by
  have hlk : (reset_session store chat).sessions.lookup chat = none :=
    lookup_filter_self store.sessions chat
  have hget : (get_session (reset_session store chat) chat).1 =
      session_from_db (store.db chat) := by
    simp [get_session, reset_session, lookup_filter_self]
  refine ⟨rfl, hlk, hget, ?_, ?_, ?_, ?_, ?_⟩
  · rw [hget]; rfl
  · rw [hget]; rfl
  · rw [hget]; rfl
  · simp only [reset_session, Store.mk.injEq, and_true]
    exact filter_of_lookup_none _ _ hlk
  · intro h
    simpa [reset_session] using filter_of_lookup_none store.sessions chat h

/-- Witness for C9 at a concrete store: one conversation with staged state,
reset drops it and leaves the durable settings readable and unchanged. -/
theorem reset_session_total_and_frame_preserving_witness :
    (reset_session
        ⟨[(7, ⟨[1, 2], "pro", "1:1", "2K", 2, [10, 11], [8, 9], [], some 5⟩)],
         fun _ => ⟨"pro", "3:2", "2K", 2⟩⟩ 7).sessions.lookup 7 = none ∧
    (get_session (reset_session
        ⟨[(7, ⟨[1, 2], "pro", "1:1", "2K", 2, [10, 11], [8, 9], [], some 5⟩)],
         fun _ => ⟨"pro", "3:2", "2K", 2⟩⟩ 7) 7).1 =
      session_from_db ⟨"pro", "3:2", "2K", 2⟩ := by
  have h := reset_session_total_and_frame_preserving
    ⟨[(7, ⟨[1, 2], "pro", "1:1", "2K", 2, [10, 11], [8, 9], [], some 5⟩)],
     fun _ => ⟨"pro", "3:2", "2K", 2⟩⟩ 7
  exact ⟨h.2.1, h.2.2.1⟩

/-- C7: `imagesPerRequest` is clamped into `[1, 4]` both by the settings
operation (`set_images_per_prompt`, which writes the clamped value to the
session and the durable settings) and by the generation-time read
(`images_per_prompt_effective`); out-of-range values are clamped to the
nearer bound and no value is ever rejected (both operations are total and
always store/return a value). -/
theorem images_per_request_always_clamped (store : Store) (chat : Nat) (v : Int) :
    (∃ s, (set_images_per_prompt store chat v).sessions.lookup chat = some s ∧
      s.images_per_prompt = ((set_images_per_prompt store chat v).db chat).images_per_prompt ∧
      1 ≤ s.images_per_prompt ∧ s.images_per_prompt ≤ 4 ∧
      (v < 1 → s.images_per_prompt = 1) ∧
      (4 < v → s.images_per_prompt = 4) ∧
      (1 ≤ v → v ≤ 4 → s.images_per_prompt = v)) ∧
    1 ≤ images_per_prompt_effective v ∧ images_per_prompt_effective v ≤ 4 ∧
    (v < 1 → images_per_prompt_effective v = 1) ∧
    (4 < v → images_per_prompt_effective v = 4) ∧
    (1 ≤ v → v ≤ 4 → images_per_prompt_effective v = v) := by
  constructor
  · refine ⟨{ (get_session store chat).1 with
        images_per_prompt :=
          if (if v < 1 then (1 : Int) else v) > 4 then 4 else if v < 1 then 1 else v },
      ?_, ?_, ?_, ?_, ?_, ?_, ?_⟩
    · simp [set_images_per_prompt, List.lookup]
    · simp only [set_images_per_prompt]
      simp
    · simp only; split_ifs <;> omega
    · simp only; split_ifs <;> omega
    · intro h; simp only; split_ifs <;> omega
    · intro h; simp only; split_ifs <;> omega
    · intro h1 h2; simp only; split_ifs <;> omega
  · have he : ∀ w : Int, images_per_prompt_effective w =
        if (if (if w = 0 then 1 else w) < 1 then 1 else if w = 0 then 1 else w) > 4 then 4
        else if (if w = 0 then 1 else w) < 1 then 1 else if w = 0 then 1 else w :=
      fun w => rfl
    refine ⟨?_, ?_, ?_, ?_, ?_⟩
    · rw [he]; split_ifs <;> omega
    · rw [he]; split_ifs <;> omega
    · intro h; rw [he]; split_ifs <;> omega
    · intro h; rw [he]; split_ifs <;> omega
    · intro h1 h2; rw [he]; split_ifs <;> omega

/-- Witness for C7 at concrete inputs: 0 is clamped to 1 by the setter and
7 is clamped to 4 by the generation-time read. -/
theorem images_per_request_always_clamped_witness :
    images_per_prompt_effective 7 = 4 ∧
    (∃ s, (set_images_per_prompt ⟨[], fun _ => ⟨"flash", "1:1", "1K", 1⟩⟩ 5 0).sessions.lookup 5 =
        some s ∧ s.images_per_prompt = 1) := by
  constructor
  · exact (images_per_request_always_clamped ⟨[], fun _ => ⟨"flash", "1:1", "1K", 1⟩⟩ 5 7).2.2.2.2.1
      (by norm_num)
  · obtain ⟨s, hs, _, _, _, h1, _, _⟩ :=
      (images_per_request_always_clamped ⟨[], fun _ => ⟨"flash", "1:1", "1K", 1⟩⟩ 5 0).1
    exact ⟨s, hs, h1 (by norm_num)⟩

/-- C10: a ledger debit never drives the balance below zero: for a positive
amount, `register_generation` with source `"extra"` stores exactly
`max 0 (previous − amount)`, and the stored balance is always
non-negative, even when the amount exceeds the previous balance. -/
theorem register_generation_never_negative (prev amount : Int) (h : 0 < amount) :
    register_generation (some prev) "extra" amount = some (max 0 (prev - amount)) ∧
    ∀ b, register_generation (some prev) "extra" amount = some b → 0 ≤ b := by
  have hne : ¬ amount ≤ 0 := by omega
  constructor
  · simp [register_generation, hne]
  · intro b hb
    simp [register_generation, hne] at hb
    omega

/-- Witness for C10: debiting 5 from a balance of 2 floors at 0. -/
theorem register_generation_never_negative_witness :
    register_generation (some 2) "extra" 5 = some 0 := by
  have h := (register_generation_never_negative 2 5 (by norm_num)).1
  simpa using h

/-- C3: the cooldown gate with interval 1 s. An attempt whose elapsed time
since the recorded timestamp is below 1 s is rejected with a whole-second
remaining wait of at least 1 and the timestamp is left unchanged; otherwise
(including a first attempt) the attempt is allowed and the timestamp is set
to the current time.  Concretely: after an attempt at `t`, an attempt at
`t + 0.1` is rejected and an attempt at `t + 1.1` is allowed. -/
theorem cooldown_gate_one_second (now last t : ℚ) :
    (now - last < 1 →
      (ensure_cooldown_and_mark now (some last) 1).allowed = false ∧
      (∃ r, (ensure_cooldown_and_mark now (some last) 1).remain = some r ∧ 1 ≤ r) ∧
      (ensure_cooldown_and_mark now (some last) 1).new_ts = some last) ∧
    (1 ≤ now - last →
      (ensure_cooldown_and_mark now (some last) 1).allowed = true ∧
      (ensure_cooldown_and_mark now (some last) 1).new_ts = some now) ∧
    ((ensure_cooldown_and_mark now none 1).allowed = true ∧
      (ensure_cooldown_and_mark now none 1).new_ts = some now) ∧
    ((ensure_cooldown_and_mark t none 1).new_ts = some t) ∧
    ((ensure_cooldown_and_mark (t + 1/10) (some t) 1).allowed = false) ∧
    ((ensure_cooldown_and_mark (t + 11/10) (some t) 1).allowed = true) := by
  refine ⟨?_, ?_, ?_, ?_, ?_, ?_⟩
  · intro h
    refine ⟨?_, ⟨if pyInt (1 - (now - last)) < 1 then 1 else pyInt (1 - (now - last)), ?_, ?_⟩, ?_⟩
    · simp [ensure_cooldown_and_mark, h]
    · simp [ensure_cooldown_and_mark, h]
    · split <;> omega
    · simp [ensure_cooldown_and_mark, h]
  · intro h
    have h' : ¬ now - last < 1 := by linarith
    simp [ensure_cooldown_and_mark, h']
  · simp [ensure_cooldown_and_mark]
  · simp [ensure_cooldown_and_mark]
  · norm_num [ensure_cooldown_and_mark]
  · norm_num [ensure_cooldown_and_mark]

/-- Witness for C3 at `t = 0`: the second attempt 0.1 s later is rejected
with remaining wait at least 1; an attempt 1.1 s later is allowed. -/
theorem cooldown_gate_one_second_witness :
    (ensure_cooldown_and_mark (1/10) (some 0) 1).allowed = false ∧
    (∃ r, (ensure_cooldown_and_mark (1/10) (some 0) 1).remain = some r ∧ 1 ≤ r) ∧
    (ensure_cooldown_and_mark (11/10) (some 0) 1).allowed = true := by
  have h := cooldown_gate_one_second (1/10) 0 0
  refine ⟨(h.1 (by norm_num)).1, (h.1 (by norm_num)).2.1, ?_⟩
  exact ((cooldown_gate_one_second (11/10) 0 0).2.1 (by norm_num)).1

/-- The per-image cost is 1 or 3 ORB. -/
theorem cost_units_one_or_three (m : String) :
    cost_units m = 1 ∨ cost_units m = 3 := by
  unfold cost_units; split <;> simp

/-- When no iteration raises, the loop makes exactly one gateway call per
requested image. -/
theorem gen_loop_calls_of_no_error (gw : Nat → GatewayResult) :
    ∀ (r i : Nat), (gen_loop gw i r).error = none → (gen_loop gw i r).calls = r := by
  intro r
  induction r with
  | zero => intro i _; rfl
  | succ q ih =>
      intro i herr
      cases hg : gw i with
      | raise msg => exact absurd herr (by simp [gen_loop, hg])
      | ok b =>
          by_cases hb : b = 0
          · have herr2 : (gen_loop gw (i + 1) q).error = none := by
              simpa [gen_loop, hg, hb] using herr
            simp [gen_loop, hg, hb, ih (i + 1) herr2]
          · have herr2 : (gen_loop gw (i + 1) q).error = none := by
              simpa [gen_loop, hg, hb] using herr
            simp [gen_loop, hg, hb, ih (i + 1) herr2]

/-- C4 (counterexample to the claim as stated): a non-privileged admitted
request for 3 images on the fast tier where the first two gateway calls
return images and the third raises (`GeminiNoImageError`, message
`NO_IMAGE`): 2 images are delivered, but the exception aborts the loop
before `register_generation`, so the ledger is debited nothing — not the
claimed `k × per-image cost = 2`. -/
theorem quota_debit_zero_despite_deliveries :
    (generate_and_send 7 "x" [] "flash" 3 0 "L" 10
      (fun i => if i ≤ 1 then GatewayResult.ok 9
                else GatewayResult.raise "NO_IMAGE")).delivered = 2 ∧
    (generate_and_send 7 "x" [] "flash" 3 0 "L" 10
      (fun i => if i ≤ 1 then GatewayResult.ok 9
                else GatewayResult.raise "NO_IMAGE")).debit = none ∧
    (generate_and_send 7 "x" [] "flash" 3 0 "L" 10
      (fun i => if i ≤ 1 then GatewayResult.ok 9
                else GatewayResult.raise "NO_IMAGE")).debit ≠
      some (2 * cost_units "flash") ∧
    (generate_and_send 7 "x" [] "flash" 3 0 "L" 10
      (fun i => if i ≤ 1 then GatewayResult.ok 9
                else GatewayResult.raise "NO_IMAGE")).error_caught = some "NO_IMAGE" := by
  refine ⟨?_, ?_, ?_, ?_⟩ <;> decide

/-- C4 (amended): for an admitted request of a non-privileged account with
`N` gateway iterations, provided no iteration raises (every call returns,
possibly with empty bytes, which the loop skips): if `k = 0` images
succeed the ledger is not debited and the "no images produced" notice is
sent; if `k ≥ 1` the ledger is debited exactly `k × per-image cost`
(1 fast / 3 advanced), never the original total `N × per-image cost` when
`k < N`.  If an iteration raises, the batch aborts there, the classified
error notice is sent, and nothing is debited at all — so whenever the
ledger is debited, the amount is exactly delivered × per-image cost. -/
theorem quota_debit_matches_delivered_count
    (chat_id : Nat) (prompt : String) (photos : List Blob) (model0 : String)
    (ipp0 : Int) (used : Nat) (label : String) (bal : Int) (gw : Nat → GatewayResult)
    (hadmin : chat_id ∉ ADMIN_IDS)
    (hinput : ¬(prompt = "" ∧ photos.filter (fun p => p ≠ 0) = []))
    (hbal : cost_units model0 * ((images_per_prompt_effective ipp0).toNat : Int) ≤ bal) :
    ((gen_loop gw 0 (images_per_prompt_effective ipp0).toNat).error = none →
      (generate_and_send chat_id prompt photos model0 ipp0 used label bal gw).delivered =
        (gen_loop gw 0 (images_per_prompt_effective ipp0).toNat).delivered ∧
      (generate_and_send chat_id prompt photos model0 ipp0 used label bal gw).gateway_calls =
        (images_per_prompt_effective ipp0).toNat ∧
      ((gen_loop gw 0 (images_per_prompt_effective ipp0).toNat).delivered = 0 →
        (generate_and_send chat_id prompt photos model0 ipp0 used label bal gw).debit = none ∧
        (generate_and_send chat_id prompt photos model0 ipp0 used label bal gw).no_images_notice =
          true) ∧
      (1 ≤ (gen_loop gw 0 (images_per_prompt_effective ipp0).toNat).delivered →
        (generate_and_send chat_id prompt photos model0 ipp0 used label bal gw).debit =
          some (((gen_loop gw 0 (images_per_prompt_effective ipp0).toNat).delivered : Int) *
            cost_units model0)) ∧
      ((gen_loop gw 0 (images_per_prompt_effective ipp0).toNat).delivered <
          (images_per_prompt_effective ipp0).toNat →
        (generate_and_send chat_id prompt photos model0 ipp0 used label bal gw).debit ≠
          some (((images_per_prompt_effective ipp0).toNat : Int) * cost_units model0))) ∧
    (∀ msg, (gen_loop gw 0 (images_per_prompt_effective ipp0).toNat).error = some msg →
      (generate_and_send chat_id prompt photos model0 ipp0 used label bal gw).debit = none ∧
      (generate_and_send chat_id prompt photos model0 ipp0 used label bal gw).error_caught =
        some msg ∧
      (generate_and_send chat_id prompt photos model0 ipp0 used label bal gw).delivered =
        (gen_loop gw 0 (images_per_prompt_effective ipp0).toNat).delivered) ∧
    (∀ a, (generate_and_send chat_id prompt photos model0 ipp0 used label bal gw).debit =
        some a →
      a = ((gen_loop gw 0 (images_per_prompt_effective ipp0).toNat).delivered : Int) *
        cost_units model0) ∧
    cost_units "flash" = 1 ∧ cost_units "pro" = 3 := by
  have hnb : ¬ bal < cost_units model0 * ((images_per_prompt_effective ipp0).toNat : Int) :=
    not_lt.mpr hbal
  refine ⟨?_, ?_, ?_, by decide, by decide⟩
  · intro herr
    have hcalls := gen_loop_calls_of_no_error gw (images_per_prompt_effective ipp0).toNat 0 herr
    refine ⟨?_, ?_, ?_, ?_, ?_⟩
    · simp only [generate_and_send, if_neg hinput, if_neg hadmin, if_neg hnb, herr]
      split <;> simp_all
    · simp only [generate_and_send, if_neg hinput, if_neg hadmin, if_neg hnb, herr]
      split <;> simp_all
    · intro h0
      refine ⟨?_, ?_⟩ <;>
        simp only [generate_and_send, if_neg hinput, if_neg hadmin, if_neg hnb, herr, if_pos h0]
    · intro h1
      simp only [generate_and_send, if_neg hinput, if_neg hadmin, if_neg hnb, herr]
      rw [if_neg (by omega)]
    · intro hlt
      simp only [generate_and_send, if_neg hinput, if_neg hadmin, if_neg hnb, herr]
      rcases Nat.eq_zero_or_pos
          (gen_loop gw 0 (images_per_prompt_effective ipp0).toNat).delivered with h0 | h1
      · simp [h0]
      · rw [if_neg (by omega)]
        intro hcontra
        have heq := Option.some.inj hcontra
        rcases cost_units_one_or_three model0 with hc | hc <;> rw [hc] at heq <;>
          · have hk : (((gen_loop gw 0 (images_per_prompt_effective ipp0).toNat).delivered :
                Int)) < ((images_per_prompt_effective ipp0).toNat : Int) := by exact_mod_cast hlt
            omega
  · intro msg herr
    refine ⟨?_, ?_, ?_⟩ <;>
      simp only [generate_and_send, if_neg hinput, if_neg hadmin, if_neg hnb, herr]
  · intro a ha
    cases herr : (gen_loop gw 0 (images_per_prompt_effective ipp0).toNat).error with
    | some msg =>
        simp only [generate_and_send, if_neg hinput, if_neg hadmin, if_neg hnb, herr] at ha
        exact absurd ha (by simp)
    | none =>
        simp only [generate_and_send, if_neg hinput, if_neg hadmin, if_neg hnb, herr] at ha
        by_cases h0 : (gen_loop gw 0 (images_per_prompt_effective ipp0).toNat).delivered = 0
        · rw [if_pos h0] at ha
          exact absurd ha (by simp)
        · rw [if_neg h0] at ha
          exact (Option.some.inj ha).symm

/-- Witness for the amended C4: chat 7 (not allow-listed), fast tier, 3
gateway calls of which the second returns empty bytes (the soft skip) and
none raises: 2 delivered, debited exactly 2 over 3 calls. -/
theorem quota_debit_matches_delivered_count_witness :
    (generate_and_send 7 "x" [] "flash" 3 0 "L" 10
      (fun i => if i = 1 then GatewayResult.ok 0 else GatewayResult.ok 9)).debit = some 2 ∧
    (generate_and_send 7 "x" [] "flash" 3 0 "L" 10
      (fun i => if i = 1 then GatewayResult.ok 0 else GatewayResult.ok 9)).delivered = 2 ∧
    (generate_and_send 7 "x" [] "flash" 3 0 "L" 10
      (fun i => if i = 1 then GatewayResult.ok 0 else GatewayResult.ok 9)).gateway_calls = 3 := by
  have h := quota_debit_matches_delivered_count 7 "x" [] "flash" 3 0 "L" 10
    (fun i => if i = 1 then GatewayResult.ok 0 else GatewayResult.ok 9)
    (by decide) (by decide) (by decide)
  have h1 := h.1 (by decide)
  refine ⟨?_, ?_, ?_⟩
  · have h2 := h1.2.2.2.1 (by decide)
    rw [h2]; decide
  · rw [h1.1]; decide
  · rw [h1.2.1]; decide

/-- C5: a privileged (allow-listed) account never has the credit ledger
consulted or debited, and when the remaining rolling-window allowance for
the selected tier is below the requested image count, the request is
rejected with the period label, limit and remaining count before any
gateway call. -/
theorem privileged_account_exemption
    (chat_id : Nat) (prompt : String) (photos : List Blob) (model0 : String)
    (ipp0 : Int) (used : Nat) (label : String) (bal : Int) (gw : Nat → GatewayResult)
    (hadm : chat_id ∈ ADMIN_IDS) :
    (generate_and_send chat_id prompt photos model0 ipp0 used label bal gw).ledger_consulted =
      false ∧
    (generate_and_send chat_id prompt photos model0 ipp0 used label bal gw).debit = none ∧
    (¬(prompt = "" ∧ photos.filter (fun p => p ≠ 0) = []) →
      (check_admin_limit_db used (normalize_model model0) label).remaining <
        ((images_per_prompt_effective ipp0).toNat : Int) →
      (generate_and_send chat_id prompt photos model0 ipp0 used label bal gw).gateway_calls = 0 ∧
      (generate_and_send chat_id prompt photos model0 ipp0 used label bal gw).rejection =
        some (GenReject.adminLimit
          (check_admin_limit_db used (normalize_model model0) label).period_label
          (check_admin_limit_db used (normalize_model model0) label).limit
          (check_admin_limit_db used (normalize_model model0) label).remaining)) := by
  by_cases hin : prompt = "" ∧ photos.filter (fun p => p ≠ 0) = []
  · refine ⟨?_, ?_, fun hc => absurd hin hc⟩ <;>
      simp only [generate_and_send, if_pos hin]
  · by_cases hrem : (check_admin_limit_db used (normalize_model model0) label).remaining <
        ((images_per_prompt_effective ipp0).toNat : Int)
    · refine ⟨?_, ?_, fun _ _ => ⟨?_, ?_⟩⟩ <;>
        simp only [generate_and_send, if_neg hin, if_pos hadm, if_pos hrem]
    · refine ⟨?_, ?_, fun _ hr => absurd hr hrem⟩ <;>
        · simp only [generate_and_send, if_neg hin, if_pos hadm, if_neg hrem]
          cases herr : (gen_loop gw 0 (images_per_prompt_effective ipp0).toNat).error with
          | none =>
              simp only [herr]
              split <;> rfl
          | some msg => simp only [herr]

/-- Witness for C5: allow-listed id 420273925 on the pro tier with 40 of 41
used (remaining 1) requesting 2 images is rejected before any gateway call
with the period label, limit 41 and remaining 1; the ledger is untouched. -/
theorem privileged_account_exemption_witness :
    (generate_and_send 420273925 "x" [] "pro" 2 40 "L" 0
      (fun _ => GatewayResult.ok 9)).ledger_consulted = false ∧
    (generate_and_send 420273925 "x" [] "pro" 2 40 "L" 0
      (fun _ => GatewayResult.ok 9)).debit = none ∧
    (generate_and_send 420273925 "x" [] "pro" 2 40 "L" 0
      (fun _ => GatewayResult.ok 9)).gateway_calls = 0 ∧
    (generate_and_send 420273925 "x" [] "pro" 2 40 "L" 0
      (fun _ => GatewayResult.ok 9)).rejection =
      some (GenReject.adminLimit "L" 41 1) := by
  have h := privileged_account_exemption 420273925 "x" [] "pro" 2 40 "L" 0
    (fun _ => GatewayResult.ok 9) (by decide)
  have h3 := h.2.2 (by decide) (by decide)
  refine ⟨h.1, h.2.1, h3.1, ?_⟩
  rw [h3.2]; decide

/-! ## Retry-loop lemmas -/

/-- If every attempt in the window is transient, the loop performs exactly
`remaining` attempts, sleeps the doubling backoffs between them, and ends
by raising (no response). -/
theorem post_go_all_transient (f : Nat → HttpOutcome) :
    ∀ (remaining : Nat) (b : ℚ) (attempt : Nat), 1 ≤ remaining →
      (∀ a, attempt ≤ a → a < attempt + remaining → isTransient (f a) = true) →
      post_with_retry_go f b attempt remaining =
        ⟨none, remaining, backoffs b (remaining - 1)⟩ := by
  intro remaining
  induction remaining with
  | zero => intro b attempt h; omega
  | succ r ih =>
      intro b attempt _ h
      have ht : isTransient (f attempt) = true := h attempt le_rfl (by omega)
      by_cases hr : r = 0
      · subst hr
        simp [post_with_retry_go, ht, backoffs]
      · have hrec := ih (b * 2) (attempt + 1) (by omega)
          (fun a ha1 ha2 => h a (by omega) (by omega))
        obtain ⟨r', hr'⟩ : ∃ r', r = r' + 1 := ⟨r - 1, by omega⟩
        subst hr'
        rw [post_with_retry_go, if_pos ht, if_neg (by omega : ¬(r' + 1 = 0)), hrec]
        simp [backoffs]

/-- If the attempts before offset `k` are transient and attempt
`attempt + k` is not, the loop returns that attempt's response after
exactly `k + 1` attempts and `k` doubling sleeps. -/
theorem post_go_first_settled (f : Nat → HttpOutcome) :
    ∀ (k : Nat) (remaining : Nat) (b : ℚ) (attempt : Nat), k < remaining →
      (∀ a, attempt ≤ a → a < attempt + k → isTransient (f a) = true) →
      isTransient (f (attempt + k)) = false →
      post_with_retry_go f b attempt remaining =
        ⟨(f (attempt + k)).statusOf, k + 1, backoffs b k⟩ := by
  intro k
  induction k with
  | zero =>
      intro remaining b attempt hlt _ hnt
      obtain ⟨r, hr⟩ : ∃ r, remaining = r + 1 := ⟨remaining - 1, by omega⟩
      subst hr
      simp only [Nat.add_zero] at hnt
      simp [post_with_retry_go, hnt, backoffs]
  | succ k ih =>
      intro remaining b attempt hlt h hnt
      obtain ⟨r, hr⟩ : ∃ r, remaining = r + 1 := ⟨remaining - 1, by omega⟩
      subst hr
      have ht : isTransient (f attempt) = true := h attempt le_rfl (by omega)
      have hrec := ih r (b * 2) (attempt + 1) (by omega)
        (fun a ha1 ha2 => h a (by omega) (by omega))
        (by rw [show attempt + 1 + k = attempt + (k + 1) by omega]; exact hnt)
      rw [show attempt + 1 + k = attempt + (k + 1) by omega] at hrec
      rw [post_with_retry_go, if_pos ht, if_neg (by omega : ¬(r = 0)), hrec]
      simp [backoffs]

/-- Each backoff sleep is the base doubled `i` times. -/
theorem backoffs_get (b : ℚ) : ∀ (n i : Nat), i < n →
    (backoffs b n).get? i = some (b * 2 ^ i) := by
  intro n
  induction n generalizing b with
  | zero => intro i h; omega
  | succ m ih =>
      intro i h
      cases i with
      | zero => simp [backoffs]
      | succ j =>
          have := ih (b * 2) j (by omega)
          simp only [backoffs, List.get?]
          rw [this]
          ring_nf

/-- A non-transient outcome is a response whose status is outside 5xx. -/
theorem not_transient_resp (o : HttpOutcome) (h : isTransient o = false) :
    ∃ s, o = HttpOutcome.resp s ∧ ¬(500 ≤ s ∧ s < 600) := by
  cases o with
  | timeout => simp [isTransient] at h
  | connError => simp [isTransient] at h
  | resp s =>
      refine ⟨s, rfl, ?_⟩
      simp [isTransient] at h
      omega

/-- C8: the gateway retry policy of `_post_with_retry`.  Transient failures
(timeout, connection error, 5xx) are retried with exponentially doubling
backoff: if all `m` attempts are transient, the loop raises only after the
full attempt cap, having slept `[b, 2b, ..., 2^(m-2) b]`; as soon as an
attempt yields a non-transient outcome (a 4xx or a success response), the
loop returns it immediately with no further attempt.  The sleeps are
exactly the doubling sequence. -/
theorem gateway_retry_policy (f : Nat → HttpOutcome) (m : Nat) (b : ℚ) (hm : 1 ≤ m) :
    ((∀ a, 1 ≤ a → a ≤ m → isTransient (f a) = true) →
      post_with_retry f m b = ⟨none, m, backoffs b (m - 1)⟩) ∧
    (∀ k, k < m → (∀ a, 1 ≤ a → a ≤ k → isTransient (f a) = true) →
      isTransient (f (k + 1)) = false →
      ∃ s, f (k + 1) = HttpOutcome.resp s ∧ ¬(500 ≤ s ∧ s < 600) ∧
        post_with_retry f m b = ⟨some s, k + 1, backoffs b k⟩) ∧
    (∀ n i, i < n → (backoffs b n).get? i = some (b * 2 ^ i)) := by
  refine ⟨?_, ?_, backoffs_get b⟩
  · intro h
    exact post_go_all_transient f m b 1 hm (fun a ha1 ha2 => h a ha1 (by omega))
  · intro k hk h hnt
    have hnt' : isTransient (f (1 + k)) = false := by
      rw [show 1 + k = k + 1 by omega]; exact hnt
    obtain ⟨s, hs, hcode⟩ := not_transient_resp _ hnt
    refine ⟨s, hs, hcode, ?_⟩
    have := post_go_first_settled f k m b 1 hk (fun a ha1 ha2 => h a ha1 (by omega)) hnt'
    rw [post_with_retry, this, show 1 + k = k + 1 by omega, hs]
    rfl

/-- Witness for C8 with cap 3 and base backoff 1: three timeouts raise
after 3 attempts with sleeps [1, 2]; a 503 followed by a 200 returns the
200 on attempt 2 after a single 1-second sleep. -/
theorem gateway_retry_policy_witness :
    post_with_retry (fun _ => HttpOutcome.timeout) 3 1 = ⟨none, 3, [1, 2]⟩ ∧
    post_with_retry (fun a => if a = 2 then HttpOutcome.resp 200 else HttpOutcome.resp 503) 3 1 =
      ⟨some 200, 2, [1]⟩ := by
  constructor
  · have h := (gateway_retry_policy (fun _ => HttpOutcome.timeout) 3 1 (by norm_num)).1
      (fun a _ _ => by decide)
    rw [h]; norm_num [backoffs]
  · have h := (gateway_retry_policy
        (fun a => if a = 2 then HttpOutcome.resp 200 else HttpOutcome.resp 503) 3 1
        (by norm_num)).2.1 1 (by norm_num) (fun a ha1 ha2 => by interval_cases a; decide)
      (by decide)
    obtain ⟨s, hs, _, hres⟩ := h
    have hs' : 200 = s := by simpa using hs
    rw [hres, ← hs']
    norm_num [backoffs]

/-! ## Remix bound lemmas -/

/-- Erasing an index never lengthens a list. -/
theorem length_eraseIdx_le {α : Type} (l : List α) (i : Nat) :
    (l.eraseIdx i).length ≤ l.length := by
  induction l generalizing i with
  | nil => simp [List.eraseIdx]
  | cons a l ih =>
      cases i with
      | zero => simp [List.eraseIdx]
      | succ j => simpa [List.eraseIdx] using ih j

/-- The status recompute does not touch the staged photos. -/
theorem update_remix_photos (s : Session) (c : Chat) :
    (update_remix_statuses s c).1.photos = s.photos := by
  unfold update_remix_statuses
  by_cases h : s.photos.length = 0 <;> simp [h]

/-- The status recompute does not touch the model setting. -/
theorem update_remix_model (s : Session) (c : Chat) :
    (update_remix_statuses s c).1.model = s.model := by
  unfold update_remix_statuses
  by_cases h : s.photos.length = 0 <;> simp [h]

/-- One Remix operation preserves the staged-photo bound and the model. -/
theorem remix_step_bound (st : Session × Chat) (op : RemixOp)
    (hb : st.1.photos.length ≤ max_photos_for_session st.1) :
    (remix_step st op).1.photos.length ≤ max_photos_for_session (remix_step st op).1 ∧
    (remix_step st op).1.model = st.1.model := by
  cases op with
  | add b =>
      simp only [remix_step, handle_photo]
      rw [if_neg (show ¬("" : String) ≠ "" by simp)]
      by_cases hlen : st.1.photos.length ≥ max_photos_for_session st.1
      · simp only [handle_photo_remix, if_pos hlen]
        exact ⟨hb, trivial⟩
      · simp only [handle_photo_remix, if_neg hlen]
        constructor
        · by_cases hmdl : st.1.model = "pro" <;>
            · simp only [update_remix_photos, update_remix_model, List.length_append]
              simp [max_photos_for_session, update_remix_model, hmdl] at hlen ⊢
              omega
        · simp [update_remix_model]
  | remove mid =>
      simp only [remix_step, handle_delete_photo]
      cases hidx : st.1.photo_status_message_ids.findIdx? (fun m => m == mid) with
      | none => simp [clear_remix_completely, clear_photos]
      | some idx =>
          simp only
          by_cases hemp : (if idx < st.1.photos.length then st.1.photos.eraseIdx idx
              else st.1.photos) = []
          · simp [hemp, clear_remix_completely, clear_photos]
          · simp only [if_neg hemp]
            constructor
            · have hle : (if idx < st.1.photos.length then st.1.photos.eraseIdx idx
                  else st.1.photos).length ≤ st.1.photos.length := by
                split
                · exact length_eraseIdx_le _ _
                · exact le_rfl
              by_cases hmdl : st.1.model = "pro" <;>
                · simp only [update_remix_photos, update_remix_model]
                  simp [max_photos_for_session, update_remix_model, hmdl] at hb ⊢
                  omega
            · simp [update_remix_model]

/-- A whole run of Remix operations preserves the staged-photo bound and
the model. -/
theorem remix_run_bound (st : Session × Chat) (ops : List RemixOp)
    (hb : st.1.photos.length ≤ max_photos_for_session st.1) :
    (remix_run st ops).1.photos.length ≤ max_photos_for_session (remix_run st ops).1 ∧
    (remix_run st ops).1.model = st.1.model := by
  induction ops generalizing st with
  | nil => exact ⟨hb, rfl⟩
  | cons op ops ih =>
      have h1 := remix_step_bound st op hb
      have h2 := ih (remix_step st op) h1.1
      exact ⟨h2.1, h2.2.trans h1.2⟩

/-- An upload arriving at the model maximum is rejected with a notice:
nothing is appended, truncated, queued or dispatched. -/
theorem handle_photo_at_max (sess : Session) (chat : Chat) (b : Blob) (now : ℚ)
    (hfull : max_photos_for_session sess ≤ sess.photos.length) :
    (handle_photo sess chat ⟨b, "", none⟩ now).sess = sess ∧
    (handle_photo sess chat ⟨b, "", none⟩ now).rejected = true ∧
    (handle_photo sess chat ⟨b, "", none⟩ now).gen = [] ∧
    (handle_photo sess chat ⟨b, "", none⟩ now).scheduled = [] := by
  have hge : sess.photos.length ≥ max_photos_for_session sess := hfull
  simp only [handle_photo]
  rw [if_neg (show ¬("" : String) ≠ "" by simp)]
  simp [handle_photo_remix, hge]

/-! ## Claim theorems: staged-photo maximum, album resolution -/

/-- C6 (counterexample to the claim as stated): the staged-photo count can
exceed the model-specific maximum.  Five photos staged on the pro tier
(maximum 14) via the upload handler, followed by `set_model` switching the
session to the fast tier (maximum 4), leaves 5 staged photos with the
model maximum now 4 — the session violates the claimed invariant. -/
theorem staged_count_exceeds_model_max_after_tier_switch :
    ((get_session (set_model
        ⟨[(7, (remix_run (session_from_db ⟨"pro", "1:1", "1K", 1⟩, initChat)
            [RemixOp.add 1, RemixOp.add 2, RemixOp.add 3, RemixOp.add 4, RemixOp.add 5]).1)],
          fun _ => ⟨"pro", "1:1", "1K", 1⟩⟩ 7 "flash") 7).1.photos.length = 5) ∧
    max_photos_for_session ((get_session (set_model
        ⟨[(7, (remix_run (session_from_db ⟨"pro", "1:1", "1K", 1⟩, initChat)
            [RemixOp.add 1, RemixOp.add 2, RemixOp.add 3, RemixOp.add 4, RemixOp.add 5]).1)],
          fun _ => ⟨"pro", "1:1", "1K", 1⟩⟩ 7 "flash") 7).1) = 4 ∧
    ¬ ((get_session (set_model
        ⟨[(7, (remix_run (session_from_db ⟨"pro", "1:1", "1K", 1⟩, initChat)
            [RemixOp.add 1, RemixOp.add 2, RemixOp.add 3, RemixOp.add 4, RemixOp.add 5]).1)],
          fun _ => ⟨"pro", "1:1", "1K", 1⟩⟩ 7 "flash") 7).1.photos.length ≤
      max_photos_for_session ((get_session (set_model
        ⟨[(7, (remix_run (session_from_db ⟨"pro", "1:1", "1K", 1⟩, initChat)
            [RemixOp.add 1, RemixOp.add 2, RemixOp.add 3, RemixOp.add 4, RemixOp.add 5]).1)],
          fun _ => ⟨"pro", "1:1", "1K", 1⟩⟩ 7 "flash") 7).1)) := by
  refine ⟨?_, ?_, ?_⟩ <;> decide

/-- C6 (amended): as long as the session's model tier is not switched, the
staged-photo count never exceeds that tier's maximum (4 fast / 14 pro)
under any sequence of photo uploads and removals, and an upload arriving
when the count is already at the maximum is rejected with a user-visible
notice — the photo is not appended, not truncated and not queued. -/
theorem staged_photo_count_bounded (d : DbSettings) (ops : List RemixOp) :
    (remix_run (session_from_db d, initChat) ops).1.photos.length ≤
      max_photos_for_session (remix_run (session_from_db d, initChat) ops).1 ∧
    (remix_run (session_from_db d, initChat) ops).1.model = d.model ∧
    (∀ (sess : Session) (chat : Chat) (b : Blob) (now : ℚ),
      max_photos_for_session sess ≤ sess.photos.length →
      (handle_photo sess chat ⟨b, "", none⟩ now).sess = sess ∧
      (handle_photo sess chat ⟨b, "", none⟩ now).rejected = true ∧
      (handle_photo sess chat ⟨b, "", none⟩ now).gen = [] ∧
      (handle_photo sess chat ⟨b, "", none⟩ now).scheduled = []) := by
  have h := remix_run_bound (session_from_db d, initChat) ops (by simp [session_from_db])
  exact ⟨h.1, h.2, fun sess chat b now hfull => handle_photo_at_max sess chat b now hfull⟩

/-- Witness for the amended C6: five uploads on the fast tier leave at most
4 staged, and an upload into a full fast-tier session is rejected
unchanged. -/
theorem staged_photo_count_bounded_witness :
    (remix_run (session_from_db ⟨"flash", "1:1", "1K", 1⟩, initChat)
        [RemixOp.add 1, RemixOp.add 2, RemixOp.add 3, RemixOp.add 4, RemixOp.add 5]).1.photos.length ≤
      max_photos_for_session (remix_run (session_from_db ⟨"flash", "1:1", "1K", 1⟩, initChat)
        [RemixOp.add 1, RemixOp.add 2, RemixOp.add 3, RemixOp.add 4, RemixOp.add 5]).1 ∧
    (handle_photo ⟨[1, 2, 3, 4], "flash", "1:1", "1K", 1, [5, 6, 7, 8], [0, 1, 2, 3], [], none⟩
        ⟨9, fun _ => none⟩ ⟨9, "", none⟩ 0).sess =
      ⟨[1, 2, 3, 4], "flash", "1:1", "1K", 1, [5, 6, 7, 8], [0, 1, 2, 3], [], none⟩ ∧
    (handle_photo ⟨[1, 2, 3, 4], "flash", "1:1", "1K", 1, [5, 6, 7, 8], [0, 1, 2, 3], [], none⟩
        ⟨9, fun _ => none⟩ ⟨9, "", none⟩ 0).rejected = true := by
  have h := staged_photo_count_bounded ⟨"flash", "1:1", "1K", 1⟩
    [RemixOp.add 1, RemixOp.add 2, RemixOp.add 3, RemixOp.add 4, RemixOp.add 5]
  have h2 := h.2.2 ⟨[1, 2, 3, 4], "flash", "1:1", "1K", 1, [5, 6, 7, 8], [0, 1, 2, 3], [], none⟩
    ⟨9, fun _ => none⟩ 9 0 (by decide)
  exact ⟨h.1, h2.1, h2.2.1⟩

/-- C1 (evaluation at the failing input): three photos 1, 2, 3 delivered in
order under one group id, caption "cat" on the second only.  The code
dispatches exactly one generation call, but with photos `[2, 3]` — the
first photo, having arrived before any caption was known, was routed into
Remix staging and then discarded when the album resolved — instead of the
claimed (and documented) full album `[1, 2, 3]`. -/
theorem album_caption_on_second_part_drops_first_photo :
    album_scenario_calls [⟨1, "", some "G"⟩, ⟨2, "cat", some "G"⟩, ⟨3, "", some "G"⟩] 0 =
      [⟨"cat", [2, 3]⟩] ∧
    album_scenario_calls [⟨1, "", some "G"⟩, ⟨2, "cat", some "G"⟩, ⟨3, "", some "G"⟩] 0 ≠
      [⟨"cat", [1, 2, 3]⟩] := by
  constructor
  · rfl
  · decide

theorem delete_many_nextId (l : List Nat) : ∀ c : Chat, (delete_many c l).nextId = c.nextId := by
  induction l with
  | nil => intro c; rfl
  | cons mid rest ih => intro c; simpa [delete_many] using ih (delete_message c mid)

theorem delete_many_msg_of_not_mem (l : List Nat) : ∀ (c : Chat) (m : Nat), m ∉ l →
    (delete_many c l).msg m = c.msg m := by
  induction l with
  | nil => intro c m _; rfl
  | cons mid rest ih =>
      intro c m h
      have h1 : m ≠ mid := fun he => h (he ▸ List.mem_cons_self mid rest)
      have h2 : m ∉ rest := fun he => h (List.mem_cons_of_mem mid he)
      rw [delete_many, ih _ _ h2]
      simp [delete_message, h1]

theorem send_many_ids (t : StatusText) : ∀ (k : Nat) (c : Chat),
    (send_many c t k).1 = List.range' c.nextId k := by
  intro k
  induction k with
  | zero => intro c; rfl
  | succ j ih =>
      intro c
      simp [send_many, send_status, ih, List.range']

theorem send_many_nextId (t : StatusText) : ∀ (k : Nat) (c : Chat),
    (send_many c t k).2.nextId = c.nextId + k := by
  intro k
  induction k with
  | zero => intro c; rfl
  | succ j ih =>
      intro c
      simp [send_many, send_status, ih]
      omega

theorem send_many_msg_lt (t : StatusText) : ∀ (k : Nat) (c : Chat) (m : Nat), m < c.nextId →
    (send_many c t k).2.msg m = c.msg m := by
  intro k
  induction k with
  | zero => intro c m _; rfl
  | succ j ih =>
      intro c m h
      have h1 : m ≠ c.nextId := by omega
      simp only [send_many, send_status]
      rw [ih _ _ (by simp; omega)]
      simp [h1]

theorem send_many_msg_new (t : StatusText) : ∀ (k : Nat) (c : Chat) (m : Nat),
    c.nextId ≤ m → m < c.nextId + k → (send_many c t k).2.msg m = some t := by
  intro k
  induction k with
  | zero => intro c m h1 h2; omega
  | succ j ih =>
      intro c m h1 h2
      simp only [send_many, send_status]
      by_cases he : m = c.nextId
      · rw [send_many_msg_lt t j _ m (by show m < c.nextId + 1; omega)]
        simp [he]
      · apply ih
        · show c.nextId + 1 ≤ m
          omega
        · show m < c.nextId + 1 + j
          omega

theorem edit_message_nextId (c : Chat) (mid : Nat) (t : StatusText) :
    (edit_message c mid t).nextId = c.nextId := by
  unfold edit_message
  cases c.msg mid <;> rfl

theorem edit_message_isSome (c : Chat) (mid : Nat) (t : StatusText) (m : Nat) :
    ((edit_message c mid t).msg m).isSome = (c.msg m).isSome := by
  unfold edit_message
  cases h : c.msg mid with
  | none => rfl
  | some x =>
      by_cases hm : m = mid <;> simp [hm, h]

theorem edit_message_of_ne (c : Chat) (mid : Nat) (t : StatusText) (m : Nat) (h : m ≠ mid) :
    (edit_message c mid t).msg m = c.msg m := by
  unfold edit_message
  cases c.msg mid with
  | none => rfl
  | some x => simp [h]

theorem edit_message_self (c : Chat) (mid : Nat) (t : StatusText)
    (h : (c.msg mid).isSome = true) :
    (edit_message c mid t).msg mid = some t := by
  unfold edit_message
  cases hx : c.msg mid with
  | none => rw [hx] at h; simp at h
  | some x => simp

theorem edit_all_nextId (mids : List Nat) : ∀ (c : Chat) (i0 count : Nat) (remaining : Int),
    (edit_all c mids i0 count remaining).nextId = c.nextId := by
  induction mids with
  | nil => intro c i0 count remaining; rfl
  | cons mid rest ih =>
      intro c i0 count remaining
      rw [edit_all, ih, edit_message_nextId]

theorem edit_all_isSome (mids : List Nat) : ∀ (c : Chat) (i0 count : Nat) (remaining : Int)
    (m : Nat), ((edit_all c mids i0 count remaining).msg m).isSome = (c.msg m).isSome := by
  induction mids with
  | nil => intro c i0 count remaining m; rfl
  | cons mid rest ih =>
      intro c i0 count remaining m
      rw [edit_all, ih, edit_message_isSome]

theorem edit_all_of_not_mem (mids : List Nat) : ∀ (c : Chat) (i0 count : Nat) (remaining : Int)
    (m : Nat), m ∉ mids → (edit_all c mids i0 count remaining).msg m = c.msg m := by
  induction mids with
  | nil => intro c i0 count remaining m _; rfl
  | cons mid rest ih =>
      intro c i0 count remaining m h
      have h1 : m ≠ mid := fun he => h (he ▸ List.mem_cons_self mid rest)
      have h2 : m ∉ rest := fun he => h (List.mem_cons_of_mem mid he)
      rw [edit_all, ih _ _ _ _ _ h2, edit_message_of_ne _ _ _ _ h1]

theorem edit_all_get (mids : List Nat) : ∀ (c : Chat) (i0 count : Nat) (remaining : Int),
    mids.Nodup → (∀ m ∈ mids, (c.msg m).isSome = true) →
    ∀ j, (hj : j < mids.length) →
      (edit_all c mids i0 count remaining).msg (mids.get ⟨j, hj⟩) =
        some (if i0 + j + 1 < count then StatusText.short (i0 + j + 1)
              else StatusText.full count remaining) := by
  induction mids with
  | nil => intro c i0 count remaining _ _ j hj; exact absurd hj (by simp)
  | cons mid rest ih =>
      intro c i0 count remaining hnd hpres j hj
      have hmid_pres : (c.msg mid).isSome = true := hpres mid (List.mem_cons_self mid rest)
      have hmid_not : mid ∉ rest := (List.nodup_cons.mp hnd).1
      cases j with
      | zero =>
          rw [edit_all]
          simp only [List.get]
          rw [edit_all_of_not_mem rest _ _ _ _ _ (by simpa using hmid_not)]
          rw [edit_message_self c mid _ hmid_pres]
      | succ j' =>
          rw [edit_all]
          simp only [List.get]
          have hrec := ih (edit_message c mid
              (if i0 + 1 < count then StatusText.short (i0 + 1)
               else StatusText.full count remaining)) (i0 + 1) count remaining
            (List.nodup_cons.mp hnd).2
            (fun m hm => by rw [edit_message_isSome]; exact hpres m (List.mem_cons_of_mem mid hm))
            j' (by simpa using Nat.lt_of_succ_lt_succ hj)
          have harith : i0 + 1 + j' + 1 = i0 + (j' + 1) + 1 := by omega
          rw [harith] at hrec
          exact hrec



/-- Characterization of the recompute in the non-empty case. -/
theorem update_remix_eq (sess : Session) (chat : Chat) (hc : ¬ sess.photos.length = 0) :
    update_remix_statuses sess chat =
      ({ sess with photo_status_message_ids :=
          (sess.photo_status_message_ids.take sess.photos.length ++
           List.range' chat.nextId
            (sess.photos.length - (sess.photo_status_message_ids.take sess.photos.length).length)) },
       edit_all
         (send_many (delete_many chat (sess.photo_status_message_ids.drop sess.photos.length))
           (StatusText.full sess.photos.length
             ((max_photos_for_session sess : Int) - (sess.photos.length : Int)))
           (sess.photos.length - (sess.photo_status_message_ids.take sess.photos.length).length)).2
         (sess.photo_status_message_ids.take sess.photos.length ++
          List.range' chat.nextId
            (sess.photos.length - (sess.photo_status_message_ids.take sess.photos.length).length))
         0 sess.photos.length
         ((max_photos_for_session sess : Int) - (sess.photos.length : Int))) := by
  simp only [update_remix_statuses, if_neg hc]
  rw [send_many_ids, delete_many_nextId]



/-- Core facts about one settled recompute over status ids `ids` for `n`
staged photos: the resulting id list `ids2` has length `n`, stays
duplicate-free and allocated, every resulting indicator is live, and
indicator `j` displays the short text before the last position and the
full text at it. -/
theorem recompute_core (n : Nat) (t : StatusText) (rem : Int) (ids ids2 : List Nat)
    (chat chat2 chat3 : Chat) (need : Nat)
    (hneed : need = n - (ids.take n).length)
    (hids2 : ids2 = ids.take n ++ List.range' chat.nextId need)
    (hchat2 : chat2 = (send_many (delete_many chat (ids.drop n)) t need).2)
    (hchat3 : chat3 = edit_all chat2 ids2 0 n rem)
    (hnd : ids.Nodup)
    (hb : ∀ m ∈ ids, m < chat.nextId)
    (hp : ∀ m ∈ ids, (chat.msg m).isSome = true) :
    ids2.length = n ∧ ids2.Nodup ∧
    (∀ m ∈ ids2, m < chat.nextId + need) ∧
    (∀ m ∈ ids2, (chat2.msg m).isSome = true) ∧
    chat3.nextId = chat.nextId + need ∧
    (∀ m ∈ ids2, (chat3.msg m).isSome = true) ∧
    (∀ j, (hj : j < ids2.length) → chat3.msg (ids2.get ⟨j, hj⟩) =
      some (if j + 1 < n then StatusText.short (j + 1) else StatusText.full n rem)) := by
  have htdnodup : (ids.take n ++ ids.drop n).Nodup := by
    rw [List.take_append_drop]; exact hnd
  have htd := List.nodup_append.mp htdnodup
  have htake_sub : ∀ m ∈ ids.take n, m ∈ ids := fun m hm =>
    (List.take_sublist n ids).subset hm
  have hlen2 : ids2.length = n := by
    rw [hids2, hneed]
    simp only [List.length_append, List.length_take, List.length_range']
    omega
  have hnd2 : ids2.Nodup := by
    rw [hids2]
    refine List.nodup_append.mpr ⟨htd.1, List.nodup_range' chat.nextId need, ?_⟩
    intro m hm hm'
    have h1 : m < chat.nextId := hb m (htake_sub m hm)
    have h2 : chat.nextId ≤ m := (List.mem_range'_1.mp hm').1
    omega
  have hb2 : ∀ m ∈ ids2, m < chat.nextId + need := by
    rw [hids2]
    intro m hm
    rcases List.mem_append.mp hm with h | h
    · have := hb m (htake_sub m h); omega
    · exact (List.mem_range'_1.mp h).2
  have hchat1_next : (delete_many chat (ids.drop n)).nextId = chat.nextId :=
    delete_many_nextId _ _
  have hp2 : ∀ m ∈ ids2, (chat2.msg m).isSome = true := by
    rw [hids2]
    intro m hm
    rcases List.mem_append.mp hm with h | h
    · have hnd_drop : m ∉ ids.drop n := fun hd => htd.2.2 h hd
      have hlt : m < (delete_many chat (ids.drop n)).nextId := by
        rw [hchat1_next]; exact hb m (htake_sub m h)
      rw [hchat2, send_many_msg_lt t _ _ m hlt,
        delete_many_msg_of_not_mem _ _ _ hnd_drop]
      exact hp m (htake_sub m h)
    · obtain ⟨hlo, hhi⟩ := List.mem_range'_1.mp h
      rw [hchat2, send_many_msg_new t _ _ m (by omega) (by rw [hchat1_next]; omega)]
      rfl
  have hnext3 : chat3.nextId = chat.nextId + need := by
    rw [hchat3, edit_all_nextId, hchat2, send_many_nextId, hchat1_next]
  have hp3 : ∀ m ∈ ids2, (chat3.msg m).isSome = true := by
    intro m hm
    rw [hchat3, edit_all_isSome]
    exact hp2 m hm
  refine ⟨hlen2, hnd2, hb2, hp2, hnext3, hp3, ?_⟩
  intro j hj
  have := edit_all_get ids2 chat2 0 n rem hnd2 hp2 j hj
  rw [hchat3]
  simpa using this



/-- The settled recompute establishes the Remix invariant and preserves the
bookkeeping invariant, for any well-formed input state. -/
theorem update_remix_establishes (sess : Session) (chat : Chat) (hwf : remix_wf sess chat) :
    remix_settled (update_remix_statuses sess chat).1 (update_remix_statuses sess chat).2 ∧
    remix_wf (update_remix_statuses sess chat).1 (update_remix_statuses sess chat).2 := by
  obtain ⟨hnd, hbound, hpres, hlen⟩ := hwf
  have hndids : sess.photo_status_message_ids.Nodup := (List.nodup_append.mp hnd).1
  have hndpm : sess.photo_message_ids.Nodup := (List.nodup_append.mp hnd).2.1
  have hdisj : sess.photo_status_message_ids.Disjoint sess.photo_message_ids :=
    (List.nodup_append.mp hnd).2.2
  have hbids : ∀ m ∈ sess.photo_status_message_ids, m < chat.nextId :=
    fun m hm => hbound m (List.mem_append.mpr (Or.inl hm))
  have hbpm : ∀ m ∈ sess.photo_message_ids, m < chat.nextId :=
    fun m hm => hbound m (List.mem_append.mpr (Or.inr hm))
  by_cases hc : sess.photos.length = 0
  · have heq : update_remix_statuses sess chat =
        ({ sess with photo_status_message_ids := [] },
         delete_many chat sess.photo_status_message_ids) := by
      simp only [update_remix_statuses, if_pos hc]
    rw [heq]
    constructor
    · exact ⟨by simpa using hc.symm, fun i hi => absurd hi (by simp)⟩
    · refine ⟨by simpa using hndpm, ?_, ?_, ?_⟩
      · intro m hm
        rw [delete_many_nextId]
        simp only [List.nil_append] at hm
        exact hbpm m hm
      · intro m hm
        exact absurd hm (by simp)
      · simpa using hlen
  · rw [update_remix_eq sess chat hc]
    obtain ⟨hlen2, hnd2, hb2, hp2, hnext3, hp3, htext⟩ :=
      recompute_core sess.photos.length
        (StatusText.full sess.photos.length
          ((max_photos_for_session sess : Int) - (sess.photos.length : Int)))
        ((max_photos_for_session sess : Int) - (sess.photos.length : Int))
        sess.photo_status_message_ids _ chat _ _ _
        rfl rfl rfl rfl hndids hbids hpres
    constructor
    · constructor
      · exact hlen2
      · intro i hi
        have ht := htext i (by simpa using hi)
        simp only [expected_status]
        exact ht
    · refine ⟨?_, ?_, ?_, ?_⟩
      · refine List.nodup_append.mpr ⟨hnd2, hndpm, ?_⟩
        intro m hm hm'
        rcases List.mem_append.mp hm with h | h
        · exact hdisj ((List.take_sublist _ _).subset h) hm'
        · have h1 : chat.nextId ≤ m := (List.mem_range'_1.mp h).1
          have h2 : m < chat.nextId := hbpm m hm'
          omega
      · intro m hm
        rw [hnext3]
        rcases List.mem_append.mp hm with h | h
        · exact hb2 m h
        · have := hbpm m h; omega
      · intro m hm
        exact hp3 m hm
      · simpa using hlen



/-- Under `Nodup`, an element surviving `eraseIdx i` differs from the
element at position `i`. -/
theorem mem_eraseIdx_ne_get (l : List Nat) (hnd : l.Nodup) (i : Nat) (h : i < l.length)
    (m : Nat) (hm : m ∈ l.eraseIdx i) : m ≠ l.get ⟨i, h⟩ ∧ m ∈ l := by
  have he : l.erase (l.get ⟨i, h⟩) = l.eraseIdx i := List.Nodup.erase_get hnd ⟨i, h⟩
  rw [← he] at hm
  exact (List.Nodup.mem_erase_iff hnd).mp hm

/-- A full Remix clear restores both invariants trivially. -/
theorem clear_invariant (sess : Session) (chat : Chat) :
    remix_wf (clear_remix_completely sess chat).1 (clear_remix_completely sess chat).2 ∧
    remix_settled (clear_remix_completely sess chat).1 (clear_remix_completely sess chat).2 := by
  constructor
  · refine ⟨?_, ?_, ?_, ?_⟩ <;> simp [clear_remix_completely, clear_photos]
  · exact ⟨rfl, fun i hi => absurd hi (by simp [clear_remix_completely, clear_photos])⟩

/-- Every Remix operation (photo add, photo remove) preserves the
bookkeeping invariant and re-establishes the settled invariant. -/
theorem remix_step_preserves (st : Session × Chat) (op : RemixOp)
    (hwf : remix_wf st.1 st.2) (hst : remix_settled st.1 st.2) :
    remix_wf (remix_step st op).1 (remix_step st op).2 ∧
    remix_settled (remix_step st op).1 (remix_step st op).2 := by
  obtain ⟨hnd, hbound, hpres, hl⟩ := hwf
  have hndids : st.1.photo_status_message_ids.Nodup := (List.nodup_append.mp hnd).1
  have hndpm : st.1.photo_message_ids.Nodup := (List.nodup_append.mp hnd).2.1
  have hdisj : st.1.photo_status_message_ids.Disjoint st.1.photo_message_ids :=
    (List.nodup_append.mp hnd).2.2
  have hbids : ∀ m ∈ st.1.photo_status_message_ids, m < st.2.nextId :=
    fun m hm => hbound m (List.mem_append.mpr (Or.inl hm))
  have hbpm : ∀ m ∈ st.1.photo_message_ids, m < st.2.nextId :=
    fun m hm => hbound m (List.mem_append.mpr (Or.inr hm))
  cases op with
  | add b =>
      simp only [remix_step, handle_photo]
      rw [if_neg (show ¬("" : String) ≠ "" by simp)]
      by_cases hlen2 : st.1.photos.length ≥ max_photos_for_session st.1
      · simp only [handle_photo_remix, if_pos hlen2]
        refine ⟨⟨hnd, ?_, hpres, hl⟩, hst⟩
        intro m hm
        have := hbound m hm
        simp only [alloc_user_msg]
        omega
      · simp only [handle_photo_remix, if_neg hlen2]
        have hwf1 : remix_wf
            { st.1 with
              photos := st.1.photos ++ [b],
              photo_message_ids := st.1.photo_message_ids ++ [(alloc_user_msg st.2).1] }
            (alloc_user_msg st.2).2 := by
          have hpm_ids : (st.2.nextId) ∉ st.1.photo_status_message_ids :=
            fun hmem => absurd (hbids _ hmem) (lt_irrefl _)
          have hpm_pm : (st.2.nextId) ∉ st.1.photo_message_ids :=
            fun hmem => absurd (hbpm _ hmem) (lt_irrefl _)
          refine ⟨?_, ?_, hpres, ?_⟩
          · refine List.nodup_append.mpr ⟨hndids, ?_, ?_⟩
            · refine List.nodup_append.mpr ⟨hndpm, by simp, ?_⟩
              intro m hm hm'
              have : m = st.2.nextId := by simpa [alloc_user_msg] using hm'
              exact hpm_pm (this ▸ hm)
            · intro m hm hm'
              rcases List.mem_append.mp hm' with h | h
              · exact hdisj hm h
              · have : m = st.2.nextId := by simpa [alloc_user_msg] using h
                exact hpm_ids (this ▸ hm)
          · intro m hm
            simp only [alloc_user_msg]
            rcases List.mem_append.mp hm with h | h
            · have := hbids m h; omega
            · rcases List.mem_append.mp h with h2 | h2
              · have := hbpm m h2; omega
              · have : m = st.2.nextId := by simpa [alloc_user_msg] using h2
                omega
          · simp only [List.length_append, List.length_cons, List.length_nil]
            omega
        have hest := update_remix_establishes _ _ hwf1
        exact ⟨hest.2, hest.1⟩
  | remove mid =>
      simp only [remix_step, handle_delete_photo]
      cases hidx : st.1.photo_status_message_ids.findIdx? (fun m => m == mid) with
      | none =>
          simp only
          exact ⟨(clear_invariant st.1 st.2).1, (clear_invariant st.1 st.2).2⟩
      | some idx =>
          simp only
          have hidxlt : idx < st.1.photo_status_message_ids.length :=
            (List.findIdx?_eq_some_iff_findIdx_eq.mp hidx).1
          have hphoto : idx < st.1.photos.length := by
            have := hst.1; omega
          have hpm : idx < st.1.photo_message_ids.length := by
            rw [hl]; exact hphoto
          rw [if_pos hphoto, if_pos hpm, List.get?_eq_get hpm]
          by_cases hemp : st.1.photos.eraseIdx idx = []
          · rw [if_pos hemp]
            exact ⟨(clear_invariant _ _).1, (clear_invariant _ _).2⟩
          · rw [if_neg hemp]
            have hmid0 : ((st.1.photo_status_message_ids.get? idx).getD 0) =
                st.1.photo_status_message_ids.get ⟨idx, hidxlt⟩ := by
              rw [List.get?_eq_get hidxlt]; rfl
            have hwf1 : remix_wf
                { st.1 with
                  photos := st.1.photos.eraseIdx idx,
                  photo_message_ids := st.1.photo_message_ids.eraseIdx idx,
                  photo_status_message_ids := st.1.photo_status_message_ids.eraseIdx idx }
                (delete_message
                  (delete_message st.2 ((st.1.photo_status_message_ids.get? idx).getD 0))
                  (st.1.photo_message_ids.get ⟨idx, hpm⟩)) := by
              refine ⟨?_, ?_, ?_, ?_⟩
              · exact List.Sublist.nodup
                  (List.Sublist.append (List.eraseIdx_sublist _ idx)
                    (List.eraseIdx_sublist _ idx)) hnd
              · intro m hm
                show m < st.2.nextId
                rcases List.mem_append.mp hm with h | h
                · exact hbids m ((List.eraseIdx_sublist _ idx).subset h)
                · exact hbpm m ((List.eraseIdx_sublist _ idx).subset h)
              · intro m hm
                obtain ⟨hne_get, hm_ids⟩ :=
                  mem_eraseIdx_ne_get _ hndids idx hidxlt m hm
                have hne_um : m ≠ st.1.photo_message_ids.get ⟨idx, hpm⟩ :=
                  fun he => hdisj hm_ids (he ▸ List.get_mem _ _ _)
                have hne_mid0 : m ≠ (st.1.photo_status_message_ids.get? idx).getD 0 := by
                  rw [hmid0]; exact hne_get
                simp only [delete_message, if_neg hne_um, if_neg hne_mid0]
                exact hpres m hm_ids
              · rw [List.length_eraseIdx_of_lt hphoto, List.length_eraseIdx_of_lt hpm, hl]
            have hest := update_remix_establishes _ _ hwf1
            rw [if_pos hpm]
            exact ⟨hest.2, hest.1⟩

/-- The combined invariant holds after any run of Remix operations. -/
theorem remix_invariant_run (ops : List RemixOp) : ∀ (st : Session × Chat),
    remix_wf st.1 st.2 → remix_settled st.1 st.2 →
    remix_wf (remix_run st ops).1 (remix_run st ops).2 ∧
    remix_settled (remix_run st ops).1 (remix_run st ops).2 := by
  induction ops with
  | nil => exact fun st h1 h2 => ⟨h1, h2⟩
  | cons op ops ih =>
      intro st h1 h2
      have hstep := remix_step_preserves st op h1 h2
      exact ih _ hstep.1 hstep.2



/-- C2: for every sequence of photo-add and photo-remove operations on one
conversation, after any settled status recompute the number of status
indicator message ids equals the number of staged photos, every indicator
at an index before the last displays the short-form text
(`StatusText.short (i+1)`), and the last indicator displays the full-form
text (`StatusText.full count remaining`, the staged count and remaining
capacity with the prompt hint). -/
theorem remix_status_indicator_invariant (d : DbSettings) (ops : List RemixOp) :
    remix_settled (remix_run (session_from_db d, initChat) ops).1
      (remix_run (session_from_db d, initChat) ops).2 := by
  have hwf0 : remix_wf (session_from_db d) initChat := by
    refine ⟨?_, ?_, ?_, ?_⟩ <;> simp [session_from_db]
  have hst0 : remix_settled (session_from_db d) initChat :=
    ⟨rfl, fun i hi => absurd hi (by simp [session_from_db])⟩
  exact (remix_invariant_run ops (session_from_db d, initChat) hwf0 hst0).2

/-- Witness for C2: a concrete run (three adds, then removing the second
indicator) on a fast-tier session ends settled. -/
theorem remix_status_indicator_invariant_witness :
    remix_settled
      (remix_run (session_from_db ⟨"flash", "1:1", "1K", 1⟩, initChat)
        [RemixOp.add 1, RemixOp.add 2, RemixOp.add 3, RemixOp.remove 2]).1
      (remix_run (session_from_db ⟨"flash", "1:1", "1K", 1⟩, initChat)
        [RemixOp.add 1, RemixOp.add 2, RemixOp.add 3, RemixOp.remove 2]).2 :=
  remix_status_indicator_invariant ⟨"flash", "1:1", "1K", 1⟩
    [RemixOp.add 1, RemixOp.add 2, RemixOp.add 3, RemixOp.remove 2]

end Oorbiit
